import Mathlib

/-!
Shallow embedding of `bevy_diagnostic_renet` (src/src/lib.rs), a diagnostics
adapter that republishes renet network statistics (RTT, throughput, packet
loss) into Bevy's diagnostics registry.  Machine integers (`u128`, `u64`) are
modelled as `Nat` with explicit bounds and `% 2^128` where the source performs
`u128` arithmetic; strings are modelled as `List Char`.
-/

/-- `2^64`, the number of `u64` values: renet client ids are `u64`. -/
def U64 : Nat := 2 ^ 64

/-- `2^128`, the number of `u128` values: `DiagnosticId` wraps a `u128`. -/
def U128 : Nat := 2 ^ 128

/-- `const BASE_RTT_ID: u128` from the source. -/
def BASE_RTT_ID : Nat := 41598154451286296937086289020957009281

/-- `const BASE_SENT_KBPS_ID: u128` from the source. -/
def BASE_SENT_KBPS_ID : Nat := 90848304625986116817112626213519895727

/-- `const BASE_RECEIVED_KBPS_ID: u128` from the source. -/
def BASE_RECEIVED_KBPS_ID : Nat := 31519729826609147865210468700944359742

/-- `const BASE_PACKET_LOSS_ID: u128` from the source. -/
def BASE_PACKET_LOSS_ID : Nat := 74946797489629323601504027060352742281

/-- `const BASE_RTT_NAME: &str = "network_rtt"`. -/
def BASE_RTT_NAME : List Char := "network_rtt".data

/-- `const BASE_SENT_KBPS_NAME: &str = "network_sent_kbps"`. -/
def BASE_SENT_KBPS_NAME : List Char := "network_sent_kbps".data

/-- `const BASE_RECEIVED_KBPS_NAME: &str = "network_received_kbps"`. -/
def BASE_RECEIVED_KBPS_NAME : List Char := "network_received_kbps".data

/-- `const BASE_PACKET_LOSS_NAME: &str = "network_packet_loss"`. -/
def BASE_PACKET_LOSS_NAME : List Char := "network_packet_loss".data

/-- The four metric kinds of the adapter (spec §3): RTT, sent throughput,
received throughput, packet loss.  The source has no explicit enum; the four
kinds appear as the four `BASE_*` constant families. -/
inductive MetricKind : Type
  | rtt
  | sentKbps
  | receivedKbps
  | packetLoss
deriving DecidableEq

/-- The base identifier constant of each metric kind. -/
def MetricKind.baseId : MetricKind → Nat
  | .rtt => BASE_RTT_ID
  | .sentKbps => BASE_SENT_KBPS_ID
  | .receivedKbps => BASE_RECEIVED_KBPS_ID
  | .packetLoss => BASE_PACKET_LOSS_ID

/-- The base display name of each metric kind. -/
def MetricKind.baseName : MetricKind → List Char
  | .rtt => BASE_RTT_NAME
  | .sentKbps => BASE_SENT_KBPS_NAME
  | .receivedKbps => BASE_RECEIVED_KBPS_NAME
  | .packetLoss => BASE_PACKET_LOSS_NAME

/-- `fn client_diagnostics_id(base: u128, client_id: u64) -> DiagnosticId`:
`DiagnosticId::from_u128(base + u128::from(client_id))`.  `u128` addition is
modelled as addition modulo `2^128`. -/
def client_diagnostics_id (base client_id : Nat) : Nat :=
  (base + client_id) % U128

/-- `fn client_rtt_id(client_id: u64) -> DiagnosticId`. -/
def client_rtt_id (client_id : Nat) : Nat :=
  client_diagnostics_id BASE_RTT_ID client_id

/-- `fn client_sent_kbps_id(client_id: u64) -> DiagnosticId`. -/
def client_sent_kbps_id (client_id : Nat) : Nat :=
  client_diagnostics_id BASE_SENT_KBPS_ID client_id

/-- `fn client_received_kbps_id(client_id: u64) -> DiagnosticId`. -/
def client_received_kbps_id (client_id : Nat) : Nat :=
  client_diagnostics_id BASE_RECEIVED_KBPS_ID client_id

/-- `fn client_packet_loss_id(client_id: u64) -> DiagnosticId`. -/
def client_packet_loss_id (client_id : Nat) : Nat :=
  client_diagnostics_id BASE_PACKET_LOSS_ID client_id

lemma U64_eq : U64 = 18446744073709551616 := by norm_num [U64]

lemma U128_eq : U128 = 340282366920938463463374607431768211456 := by
  norm_num [U128]

/-- For each of the four base identifiers, adding a `u64` client id stays
below `2^128`, so the `u128` addition does not wrap. -/
lemma baseId_add_lt (k : MetricKind) (c : Nat) (hc : c < U64) :
    k.baseId + c < U128 := by
  rw [U64_eq] at hc
  rw [U128_eq]
  cases k <;> simp only [MetricKind.baseId, BASE_RTT_ID, BASE_SENT_KBPS_ID,
    BASE_RECEIVED_KBPS_ID, BASE_PACKET_LOSS_ID] <;> omega

/-- The modular addition in `client_diagnostics_id` is plain addition for the
four base identifiers and any `u64` client id. -/
lemma client_diagnostics_id_eq (k : MetricKind) (c : Nat) (hc : c < U64) :
    client_diagnostics_id k.baseId c = k.baseId + c := by
  unfold client_diagnostics_id
  exact Nat.mod_eq_of_lt (baseId_add_lt k c hc)

/-- Derived ids of two different clients never coincide, across all kind
pairs: same kind gives injectivity in the client id, different kinds are
spaced by far more than `2^64`. -/
lemma derived_id_ne_of_client_ne (k k' : MetricKind) (c c' : Nat)
    (hc : c < U64) (hc' : c' < U64) (hne : c ≠ c') :
    client_diagnostics_id k.baseId c ≠ client_diagnostics_id k'.baseId c' := by
  rw [client_diagnostics_id_eq k c hc, client_diagnostics_id_eq k' c' hc']
  rw [U64_eq] at hc hc'
  cases k <;> cases k' <;>
    simp only [MetricKind.baseId, BASE_RTT_ID, BASE_SENT_KBPS_ID,
      BASE_RECEIVED_KBPS_ID, BASE_PACKET_LOSS_ID] <;> omega

/-- C1 (counterexample): the claim quantifies over every 64-bit client id,
but at client id `0` the derived identifier for a kind equals that kind's own
base identifier: `derivedIdentifier(RTT, 0) = BASE_RTT_ID`. -/
theorem derived_id_collides_at_zero :
    client_diagnostics_id MetricKind.rtt.baseId 0 = BASE_RTT_ID ∧
      (0 : Nat) < U64 := by
  constructor
  · rw [client_diagnostics_id_eq MetricKind.rtt 0 (by rw [U64_eq]; omega)]
    rfl
  · rw [U64_eq]; omega

/-- C1 (amended): for every metric kind `k` and every NONZERO 64-bit client
id `c`, the derived identifier `baseId k + c` differs from each of the four
single-connection base identifiers. -/
theorem derived_id_ne_base_id (k k' : MetricKind) (c : Nat)
    (hpos : 0 < c) (hc : c < U64) :
    client_diagnostics_id k.baseId c ≠ k'.baseId := by
  rw [client_diagnostics_id_eq k c hc]
  rw [U64_eq] at hc
  cases k <;> cases k' <;>
    simp only [MetricKind.baseId, BASE_RTT_ID, BASE_SENT_KBPS_ID,
      BASE_RECEIVED_KBPS_ID, BASE_PACKET_LOSS_ID] <;> omega

/-- Witness for C1 (amended), Scenario D: `derivedIdentifier(RTT, 5)` differs
from `BASE_RTT_ID`. -/
theorem derived_id_ne_base_id_witness :
    (0 : Nat) < 5 ∧ (5 : Nat) < U64 ∧
      client_diagnostics_id MetricKind.rtt.baseId 5 ≠
        MetricKind.rtt.baseId :=
  ⟨by omega, by rw [U64_eq]; omega,
    derived_id_ne_base_id MetricKind.rtt MetricKind.rtt 5 (by omega)
      (by rw [U64_eq]; omega)⟩

/-- C6: for a fixed metric kind, the derivation `base + client_id` is
injective in the 64-bit client id: distinct clients get distinct derived
identifiers. -/
theorem derived_id_injective_in_client (k : MetricKind) (c1 c2 : Nat)
    (h1 : c1 < U64) (h2 : c2 < U64) (hne : c1 ≠ c2) :
    client_diagnostics_id k.baseId c1 ≠ client_diagnostics_id k.baseId c2 :=
  derived_id_ne_of_client_ne k k c1 c2 h1 h2 hne

/-- Witness for C6 at kind RTT, clients 3 and 4. -/
theorem derived_id_injective_in_client_witness :
    (3 : Nat) < U64 ∧ (4 : Nat) < U64 ∧
      client_diagnostics_id MetricKind.rtt.baseId 3 ≠
        client_diagnostics_id MetricKind.rtt.baseId 4 :=
  ⟨by rw [U64_eq]; omega, by rw [U64_eq]; omega,
    derived_id_injective_in_client MetricKind.rtt 3 4
      (by rw [U64_eq]; omega) (by rw [U64_eq]; omega) (by omega)⟩

/-- C7: for distinct metric kinds and the same 64-bit client id, the derived
identifiers differ, given the actual base-identifier constants. -/
theorem derived_id_ne_across_kinds (k1 k2 : MetricKind) (c : Nat)
    (hc : c < U64) (hne : k1 ≠ k2) :
    client_diagnostics_id k1.baseId c ≠ client_diagnostics_id k2.baseId c := by
  rw [client_diagnostics_id_eq k1 c hc, client_diagnostics_id_eq k2 c hc]
  rw [U64_eq] at hc
  cases k1 <;> cases k2 <;> first
    | exact absurd rfl hne
    | simp only [MetricKind.baseId, BASE_RTT_ID, BASE_SENT_KBPS_ID,
        BASE_RECEIVED_KBPS_ID, BASE_PACKET_LOSS_ID] <;> omega

/-- Witness for C7 at kinds RTT and packet loss, client 9. -/
theorem derived_id_ne_across_kinds_witness :
    (9 : Nat) < U64 ∧ MetricKind.rtt ≠ MetricKind.packetLoss ∧
      client_diagnostics_id MetricKind.rtt.baseId 9 ≠
        client_diagnostics_id MetricKind.packetLoss.baseId 9 :=
  ⟨by rw [U64_eq]; omega, by simp,
    derived_id_ne_across_kinds MetricKind.rtt MetricKind.packetLoss 9
      (by rw [U64_eq]; omega) (by simp)⟩

/-- C8: the `u128` addition `base + client_id` cannot overflow: for each of
the four base-identifier constants and every 64-bit client id the sum stays
below `2^128`, so `client_diagnostics_id` computes the plain sum. -/
theorem derived_id_no_overflow (k : MetricKind) (c : Nat) (hc : c < U64) :
    k.baseId + c < U128 ∧
      client_diagnostics_id k.baseId c = k.baseId + c :=
  ⟨baseId_add_lt k c hc, client_diagnostics_id_eq k c hc⟩

/-- Witness for C8 at kind sent-kbps (the largest base) and the largest
possible client id `2^64 - 1`. -/
theorem derived_id_no_overflow_witness :
    U64 - 1 < U64 ∧
      MetricKind.sentKbps.baseId + (U64 - 1) < U128 ∧
      client_diagnostics_id MetricKind.sentKbps.baseId (U64 - 1) =
        MetricKind.sentKbps.baseId + (U64 - 1) :=
  ⟨by rw [U64_eq]; omega,
    (derived_id_no_overflow MetricKind.sentKbps (U64 - 1)
      (by rw [U64_eq]; omega)).1,
    (derived_id_no_overflow MetricKind.sentKbps (U64 - 1)
      (by rw [U64_eq]; omega)).2⟩

/-- Decimal digits of `n`, least significant first; fuel-based structural
recursion so that terms compute by `decide`.  Mirrors Rust's `Display` for
unsigned integers (digits `'0'..'9'`). -/
def decRevAux : Nat → Nat → List Char
  | 0, _ => []
  | fuel + 1, n =>
    if n = 0 then [] else Nat.digitChar (n % 10) :: decRevAux fuel (n / 10)

/-- Decimal rendering of a natural number, most significant digit first,
`"0"` for zero: the embedding of `format!("{}", client_id)`. -/
def decRepr (n : Nat) : List Char :=
  if n = 0 then ['0'] else (decRevAux n n).reverse

/-- `fn client_diagnostics_name(base: &str, client_id: u64) -> String`:
`format!("{}_{}", base, client_id)`. -/
def client_diagnostics_name (base : List Char) (client_id : Nat) :
    List Char :=
  base ++ '_' :: decRepr client_id

/-- Numeric value of a least-significant-first digit list; left inverse of
`decRevAux`. -/
def ofRevDigits : List Char → Nat
  | [] => 0
  | c :: cs => (c.toNat - 48) + 10 * ofRevDigits cs

lemma digitChar_toNat (d : Nat) (hd : d < 10) :
    (Nat.digitChar d).toNat = 48 + d := by
  interval_cases d <;> rfl

lemma ofRevDigits_decRevAux :
    ∀ (fuel n : Nat), n ≤ fuel → ofRevDigits (decRevAux fuel n) = n := by
  intro fuel
  induction fuel with
  | zero => intro n hn; interval_cases n; rfl
  | succ fuel ih =>
    intro n hn
    by_cases h0 : n = 0
    · simp [decRevAux, h0, ofRevDigits]
    · have hdiv : n / 10 ≤ fuel := by
        have hlt : n / 10 < n :=
          Nat.div_lt_self (Nat.pos_of_ne_zero h0) (by norm_num)
        omega
      simp only [decRevAux, h0, if_false, ofRevDigits]
      rw [ih (n / 10) hdiv, digitChar_toNat (n % 10) (Nat.mod_lt n (by omega))]
      omega

lemma decRepr_injective (m n : Nat) (h : decRepr m = decRepr n) : m = n := by
  unfold decRepr at h
  by_cases hm : m = 0 <;> by_cases hn : n = 0
  · omega
  · exfalso
    simp only [hm, if_true, hn, if_false] at h
    have : ofRevDigits (decRevAux n n) = n := ofRevDigits_decRevAux n n le_rfl
    have hrev : decRevAux n n = ['0'] := by
      have := congrArg List.reverse h
      simpa using this.symm
    rw [hrev] at this
    simp [ofRevDigits] at this
    omega
  · exfalso
    simp only [hm, if_false, hn, if_true] at h
    have : ofRevDigits (decRevAux m m) = m := ofRevDigits_decRevAux m m le_rfl
    have hrev : decRevAux m m = ['0'] := by
      have := congrArg List.reverse h
      simpa using this
    rw [hrev] at this
    simp [ofRevDigits] at this
    omega
  · simp only [hm, if_false, hn, if_false] at h
    have hd : decRevAux m m = decRevAux n n :=
      List.reverse_injective h
    have h1 := ofRevDigits_decRevAux m m le_rfl
    have h2 := ofRevDigits_decRevAux n n le_rfl
    rw [hd] at h1
    omega

/-- C9: the display name concatenates the base name and the decimal client id
with a single underscore; at kind RTT and client 42 it is exactly
`"network_rtt_42"`, with base name `"network_rtt"`. -/
theorem client_diagnostics_name_format :
    client_diagnostics_name BASE_RTT_NAME 42 = "network_rtt_42".data ∧
      BASE_RTT_NAME = "network_rtt".data ∧
      ∀ (base : List Char) (c : Nat),
        client_diagnostics_name base c = base ++ '_' :: decRepr c :=
  ⟨by decide, rfl, fun base c => rfl⟩

/-- If two lists agree on no common-length initial segment, no extensions of
them are equal. -/
lemma append_take_ne (a b t1 t2 : List Char)
    (hab : a.take (min a.length b.length) ≠
      b.take (min a.length b.length)) :
    a ++ t1 ≠ b ++ t2 := by
  intro heq
  apply hab
  have h1 : (a ++ t1).take (min a.length b.length) =
      a.take (min a.length b.length) := by
    rw [List.take_append_eq_append_take]
    have hz : min a.length b.length - a.length = 0 := by omega
    rw [hz]
    simp
  have h2 : (b ++ t2).take (min a.length b.length) =
      b.take (min a.length b.length) := by
    rw [List.take_append_eq_append_take]
    have hz : min a.length b.length - b.length = 0 := by omega
    rw [hz]
    simp
  rw [← h1, ← h2, heq]

/-- C10: per-client display names are globally unambiguous: the map
`(kind, clientId) ↦ client_diagnostics_name (baseName kind) clientId` is
injective, and no per-client display name equals any of the four base metric
names used in single-connection mode. -/
theorem client_names_unambiguous :
    (∀ (k1 k2 : MetricKind) (c1 c2 : Nat),
        client_diagnostics_name k1.baseName c1 =
          client_diagnostics_name k2.baseName c2 → k1 = k2 ∧ c1 = c2) ∧
      ∀ (k k' : MetricKind) (c : Nat),
        client_diagnostics_name k.baseName c ≠ k'.baseName := by
  constructor
  · intro k1 k2 c1 c2 h
    unfold client_diagnostics_name at h
    cases k1 <;> cases k2 <;>
      first
        | · refine ⟨rfl, ?_⟩
            have htail := List.append_cancel_left h
            have hd : decRepr c1 = decRepr c2 := by
              injection htail
            exact decRepr_injective c1 c2 hd
        | exact absurd h (append_take_ne _ _ _ _ (by decide))
  · intro k k' c h
    unfold client_diagnostics_name at h
    by_cases hkk : k = k'
    · subst hkk
      have hlen := congrArg List.length h
      simp only [List.length_append, List.length_cons] at hlen
      omega
    · have hb : k.baseName ≠ k'.baseName ∧
          k.baseName.take (min k.baseName.length k'.baseName.length) ≠
            k'.baseName.take (min k.baseName.length k'.baseName.length) := by
        cases k <;> cases k' <;>
          first
            | exact absurd rfl hkk
            | exact ⟨by decide, by decide⟩
      have := append_take_ne k.baseName k'.baseName
        ('_' :: decRepr c) [] hb.2
      rw [List.append_nil] at this
      exact this h

/-- Witness for C10: injectivity applied at kind RTT, client 42 on both
sides. -/
theorem client_names_unambiguous_witness :
    MetricKind.rtt = MetricKind.rtt ∧ (42 : Nat) = 42 :=
  client_names_unambiguous.1 MetricKind.rtt MetricKind.rtt 42 42 rfl

/-- A registered metric series: `bevy::diagnostic::Diagnostic::new(id, name,
max_history_length)` as observed from this adapter (id, display name, rolling
history capacity). -/
structure Diagnostic where
  id : Nat
  name : List Char
  max_history_length : Nat
deriving DecidableEq

/-- The metrics sink (`bevy::diagnostic::Diagnostics`) as the log of calls
this adapter issues to it: `added` records `Diagnostics::add` calls (the
metric catalog, in call order) and `pushed` records
`Diagnostics::add_measurement` calls as `(identifier, value)` pairs.  Sample
values are passed through verbatim, so they are modelled by an arbitrary
type `α`. -/
structure Diagnostics (α : Type) where
  added : List Diagnostic
  pushed : List (Nat × α)
deriving DecidableEq

/-- `Diagnostics::add(diagnostic)`. -/
def Diagnostics.add {α : Type} (d : Diagnostics α) (x : Diagnostic) :
    Diagnostics α :=
  { d with added := d.added ++ [x] }

/-- `Diagnostics::add_measurement(id, || value)`: the closure is a simple
deferred value-producer, modelled as the eager value. -/
def Diagnostics.push {α : Type} (d : Diagnostics α) (id : Nat) (v : α) :
    Diagnostics α :=
  { d with pushed := d.pushed ++ [(id, v)] }

/-- `fn client_rtt(client_id: u64) -> Diagnostic`. -/
def client_rtt (client_id : Nat) : Diagnostic :=
  ⟨client_rtt_id client_id,
    client_diagnostics_name BASE_RTT_NAME client_id, 20⟩

/-- `fn client_sent_kbps(client_id: u64) -> Diagnostic`. -/
def client_sent_kbps (client_id : Nat) : Diagnostic :=
  ⟨client_sent_kbps_id client_id,
    client_diagnostics_name BASE_SENT_KBPS_NAME client_id, 20⟩

/-- `fn client_received_kbps(client_id: u64) -> Diagnostic`. -/
def client_received_kbps (client_id : Nat) : Diagnostic :=
  ⟨client_received_kbps_id client_id,
    client_diagnostics_name BASE_RECEIVED_KBPS_NAME client_id, 20⟩

/-- `fn client_packet_loss(client_id: u64) -> Diagnostic`. -/
def client_packet_loss (client_id : Nat) : Diagnostic :=
  ⟨client_packet_loss_id client_id,
    client_diagnostics_name BASE_PACKET_LOSS_NAME client_id, 20⟩

/-- `struct RenetDiagnosticsState { added_client_ids: HashSet<u64> }`. -/
structure RenetDiagnosticsState where
  added_client_ids : Finset Nat
deriving DecidableEq

/-- `RenetDiagnosticsState::default()`: the empty set, inserted as a resource
by `RenetDiagnosticsPlugin::build`. -/
def RenetDiagnosticsState.start : RenetDiagnosticsState := ⟨∅⟩

/-- `RenetDiagnosticsState::track_client_id(&mut self, diagnostics, client_id)`:
if the id is already tracked, return; otherwise register the four per-client
series and insert the id. -/
def RenetDiagnosticsState.track_client_id {α : Type}
    (s : RenetDiagnosticsState) (d : Diagnostics α) (client_id : Nat) :
    RenetDiagnosticsState × Diagnostics α :=
  if client_id ∈ s.added_client_ids then (s, d)
  else
    (⟨insert client_id s.added_client_ids⟩,
      ((((d.add (client_rtt client_id)).add
          (client_sent_kbps client_id)).add
          (client_received_kbps client_id)).add
          (client_packet_loss client_id)))

/-- `renet::NetworkInfo`: the snapshot read from a connection.  Values are
passed through verbatim (only widened to `f64`), so they are modelled by an
arbitrary type `α`. -/
structure NetworkInfo (α : Type) where
  rtt : α
  sent_kbps : α
  received_kbps : α
  packet_loss : α
deriving DecidableEq

/-- `renet::RenetClient` as consumed by this adapter: a network-info
snapshot. -/
structure RenetClient (α : Type) where
  network_info : NetworkInfo α

/-- `renet::RenetServer` as consumed by this adapter: the list of currently
connected client ids (`clients_id()`) and the per-id network-info lookup
(`network_info(id)`), which may be absent. -/
structure RenetServer (α : Type) where
  clients_id : List Nat
  network_info : Nat → Option (NetworkInfo α)

/-- `RenetDiagnosticsPlugin::setup_client_system`: registers the four base
metric series with history capacity 20. -/
def setup_client_system {α : Type} (d : Diagnostics α) : Diagnostics α :=
  (((d.add ⟨BASE_RTT_ID, BASE_RTT_NAME, 20⟩).add
      ⟨BASE_SENT_KBPS_ID, BASE_SENT_KBPS_NAME, 20⟩).add
      ⟨BASE_RECEIVED_KBPS_ID, BASE_RECEIVED_KBPS_NAME, 20⟩).add
      ⟨BASE_PACKET_LOSS_ID, BASE_PACKET_LOSS_NAME, 20⟩

/-- `RenetDiagnosticsPlugin::diagnostic_client_system`: reads the snapshot
and pushes one sample per base identifier. -/
def diagnostic_client_system {α : Type} (client : RenetClient α)
    (d : Diagnostics α) : Diagnostics α :=
  (((d.push BASE_RTT_ID client.network_info.rtt).push
      BASE_SENT_KBPS_ID client.network_info.sent_kbps).push
      BASE_RECEIVED_KBPS_ID client.network_info.received_kbps).push
      BASE_PACKET_LOSS_ID client.network_info.packet_loss

/-- The body of the `for client_id in server.clients_id()` loop of
`diagnostic_server_system`: if network info is present, lazily register the
client and push its four samples; otherwise do nothing. -/
def server_client_step {α : Type} (server : RenetServer α)
    (acc : RenetDiagnosticsState × Diagnostics α) (client_id : Nat) :
    RenetDiagnosticsState × Diagnostics α :=
  match server.network_info client_id with
  | none => acc
  | some info =>
    let p := acc.1.track_client_id acc.2 client_id
    (p.1,
      (((p.2.push (client_rtt_id client_id) info.rtt).push
          (client_sent_kbps_id client_id) info.sent_kbps).push
          (client_received_kbps_id client_id) info.received_kbps).push
          (client_packet_loss_id client_id) info.packet_loss)

/-- `RenetDiagnosticsPlugin::diagnostic_server_system`: one server-mode
tick. -/
def diagnostic_server_system {α : Type} (server : RenetServer α)
    (s : RenetDiagnosticsState) (d : Diagnostics α) :
    RenetDiagnosticsState × Diagnostics α :=
  server.clients_id.foldl (server_client_step server) (s, d)

/-- C2: `track_client_id` is idempotent: a second call with the same client
id is a no-op on both the registered-client set and the sink (so
registration calls reach the sink only during the first call), and when the
id is new the first call registers exactly the four per-client series, pushes
no samples, and inserts the id. -/
theorem track_client_id_idempotent {α : Type} (s : RenetDiagnosticsState)
    (d : Diagnostics α) (c : Nat) :
    (s.track_client_id d c).1.track_client_id (s.track_client_id d c).2 c =
      s.track_client_id d c ∧
    (c ∉ s.added_client_ids →
      (s.track_client_id d c).1.added_client_ids =
        insert c s.added_client_ids ∧
      (s.track_client_id d c).2.added =
        d.added ++ [client_rtt c, client_sent_kbps c,
          client_received_kbps c, client_packet_loss c] ∧
      (s.track_client_id d c).2.pushed = d.pushed) := by
  by_cases hc : c ∈ s.added_client_ids
  · simp [RenetDiagnosticsState.track_client_id, hc]
  · simp [RenetDiagnosticsState.track_client_id, hc, Diagnostics.add]

/-- Witness for C2 at the empty registry, an empty sink over `Nat` samples,
and client id 7. -/
theorem track_client_id_idempotent_witness :
    ((RenetDiagnosticsState.start.track_client_id
          (⟨[], []⟩ : Diagnostics Nat) 7).1.track_client_id
        (RenetDiagnosticsState.start.track_client_id
          (⟨[], []⟩ : Diagnostics Nat) 7).2 7 =
      RenetDiagnosticsState.start.track_client_id
        (⟨[], []⟩ : Diagnostics Nat) 7) ∧
    ((RenetDiagnosticsState.start.track_client_id
          (⟨[], []⟩ : Diagnostics Nat) 7).1.added_client_ids =
        insert 7 RenetDiagnosticsState.start.added_client_ids ∧
      (RenetDiagnosticsState.start.track_client_id
          (⟨[], []⟩ : Diagnostics Nat) 7).2.added =
        [] ++ [client_rtt 7, client_sent_kbps 7, client_received_kbps 7,
          client_packet_loss 7] ∧
      (RenetDiagnosticsState.start.track_client_id
          (⟨[], []⟩ : Diagnostics Nat) 7).2.pushed = []) :=
  ⟨(track_client_id_idempotent RenetDiagnosticsState.start ⟨[], []⟩ 7).1,
    (track_client_id_idempotent RenetDiagnosticsState.start ⟨[], []⟩ 7).2
      (by decide)⟩

/-- C4: in single-connection mode, startup registers exactly the four base
series (ids, names, history capacity 20) and pushes nothing; each sampling
tick pushes exactly the four snapshot fields, verbatim, to the four base
identifiers, and registers nothing. -/
theorem client_mode_setup_and_tick {α : Type} (d e : Diagnostics α)
    (client : RenetClient α) :
    ((setup_client_system d).added = d.added ++
        [⟨BASE_RTT_ID, BASE_RTT_NAME, 20⟩,
          ⟨BASE_SENT_KBPS_ID, BASE_SENT_KBPS_NAME, 20⟩,
          ⟨BASE_RECEIVED_KBPS_ID, BASE_RECEIVED_KBPS_NAME, 20⟩,
          ⟨BASE_PACKET_LOSS_ID, BASE_PACKET_LOSS_NAME, 20⟩] ∧
      (setup_client_system d).pushed = d.pushed) ∧
    ((diagnostic_client_system client e).pushed = e.pushed ++
        [(BASE_RTT_ID, client.network_info.rtt),
          (BASE_SENT_KBPS_ID, client.network_info.sent_kbps),
          (BASE_RECEIVED_KBPS_ID, client.network_info.received_kbps),
          (BASE_PACKET_LOSS_ID, client.network_info.packet_loss)] ∧
      (diagnostic_client_system client e).added = e.added) := by
  simp [setup_client_system, diagnostic_client_system, Diagnostics.add,
    Diagnostics.push]

/-- `track_client_id` never removes ids: its set is `insert` or unchanged. -/
lemma track_client_id_mem {α : Type} (s : RenetDiagnosticsState)
    (d : Diagnostics α) (c x : Nat) :
    x ∈ (s.track_client_id d c).1.added_client_ids ↔
      x ∈ s.added_client_ids ∨ x = c := by
  unfold RenetDiagnosticsState.track_client_id
  by_cases hc : c ∈ s.added_client_ids
  · simp only [hc, if_true]
    constructor
    · exact Or.inl
    · rintro (h | rfl)
      · exact h
      · exact hc
  · simp [hc, Finset.mem_insert, or_comm]

/-- Membership in the registered-client set after one loop iteration of the
server system. -/
lemma server_client_step_mem {α : Type} (server : RenetServer α)
    (acc : RenetDiagnosticsState × Diagnostics α) (c x : Nat) :
    x ∈ (server_client_step server acc c).1.added_client_ids ↔
      x ∈ acc.1.added_client_ids ∨
        (x = c ∧ (server.network_info c).isSome) := by
  unfold server_client_step
  cases hinfo : server.network_info c with
  | none => simp
  | some info => simp [track_client_id_mem]

/-- Membership in the registered-client set after folding the loop body over
a list of client ids. -/
lemma foldl_server_client_step_mem {α : Type} (server : RenetServer α) :
    ∀ (cs : List Nat) (acc : RenetDiagnosticsState × Diagnostics α)
      (x : Nat),
      x ∈ (cs.foldl (server_client_step server) acc).1.added_client_ids ↔
        x ∈ acc.1.added_client_ids ∨
          (x ∈ cs ∧ (server.network_info x).isSome) := by
  intro cs
  induction cs with
  | nil => simp
  | cons c cs ih =>
    intro acc x
    rw [List.foldl_cons, ih, server_client_step_mem]
    constructor
    · rintro ((h | ⟨rfl, hs⟩) | ⟨hmem, hs⟩)
      · exact Or.inl h
      · exact Or.inr ⟨List.mem_cons_self _ _, hs⟩
      · exact Or.inr ⟨List.mem_cons_of_mem _ hmem, hs⟩
    · rintro (h | ⟨hmem, hs⟩)
      · exact Or.inl (Or.inl h)
      · rcases List.mem_cons.mp hmem with rfl | hmem'
        · exact Or.inl (Or.inr ⟨rfl, hs⟩)
        · exact Or.inr ⟨hmem', hs⟩

/-- C3: the registered-client set starts empty and evolves monotonically
under every server-mode tick: after a tick, an id is registered iff it was
registered before or it is currently connected with network info present; in
particular ids are never removed, and a new id is inserted exactly on the
first tick where its info is present. -/
theorem registered_set_lifecycle (α : Type) :
    RenetDiagnosticsState.start.added_client_ids = ∅ ∧
      ∀ (server : RenetServer α) (s : RenetDiagnosticsState)
        (d : Diagnostics α),
        s.added_client_ids ⊆
          (diagnostic_server_system server s d).1.added_client_ids ∧
        ∀ x,
          x ∈ (diagnostic_server_system server s d).1.added_client_ids ↔
            x ∈ s.added_client_ids ∨
              (x ∈ server.clients_id ∧ (server.network_info x).isSome) := by
  refine ⟨rfl, fun server s d => ⟨?_, ?_⟩⟩
  · intro x hx
    exact (foldl_server_client_step_mem server server.clients_id (s, d)
      x).mpr (Or.inl hx)
  · exact foldl_server_client_step_mem server server.clients_id (s, d)

/-- The four derived identifiers of a client. -/
def clientIdsOf (c : Nat) : List Nat :=
  [client_rtt_id c, client_sent_kbps_id c, client_received_kbps_id c,
    client_packet_loss_id c]

/-- No derived identifier of client `c'` is a derived identifier of a
different client `c`. -/
lemma notMem_clientIdsOf (k : MetricKind) (c c' : Nat) (hc : c < U64)
    (hc' : c' < U64) (hne : c' ≠ c) :
    client_diagnostics_id k.baseId c' ∉ clientIdsOf c := by
  intro hmem
  simp only [clientIdsOf, List.mem_cons, List.mem_singleton,
    List.not_mem_nil, or_false] at hmem
  rcases hmem with h | h | h | h
  · exact derived_id_ne_of_client_ne k MetricKind.rtt c' c hc' hc hne h
  · exact derived_id_ne_of_client_ne k MetricKind.sentKbps c' c hc' hc hne h
  · exact derived_id_ne_of_client_ne k MetricKind.receivedKbps c' c hc' hc
      hne h
  · exact derived_id_ne_of_client_ne k MetricKind.packetLoss c' c hc' hc
      hne h

/-- One loop iteration for a client `c'` different from `c` (or with absent
info) leaves the `c`-related parts of both sink logs unchanged. -/
lemma server_client_step_preserves_other {α : Type}
    (server : RenetServer α) (c c' : Nat) (hc : c < U64) (hc' : c' < U64)
    (habs : server.network_info c = none)
    (acc : RenetDiagnosticsState × Diagnostics α) :
    ((server_client_step server acc c').2.added.filter
        (fun e => decide (e.id ∈ clientIdsOf c)) =
      acc.2.added.filter (fun e => decide (e.id ∈ clientIdsOf c))) ∧
    ((server_client_step server acc c').2.pushed.filter
        (fun m => decide (m.1 ∈ clientIdsOf c)) =
      acc.2.pushed.filter (fun m => decide (m.1 ∈ clientIdsOf c))) := by
  cases hinfo : server.network_info c' with
  | none => simp [server_client_step, hinfo]
  | some info =>
    have hne : c' ≠ c := by
      intro h
      rw [h, habs] at hinfo
      exact Option.noConfusion hinfo
    have h1 := notMem_clientIdsOf MetricKind.rtt c c' hc hc' hne
    have h2 := notMem_clientIdsOf MetricKind.sentKbps c c' hc hc' hne
    have h3 := notMem_clientIdsOf MetricKind.receivedKbps c c' hc hc' hne
    have h4 := notMem_clientIdsOf MetricKind.packetLoss c c' hc hc' hne
    simp only [MetricKind.baseId] at h1 h2 h3 h4
    by_cases hmem : c' ∈ acc.1.added_client_ids <;>
      simp [server_client_step, hinfo,
        RenetDiagnosticsState.track_client_id, hmem, Diagnostics.add,
        Diagnostics.push, client_rtt, client_sent_kbps,
        client_received_kbps, client_packet_loss, client_rtt_id,
        client_sent_kbps_id, client_received_kbps_id, client_packet_loss_id,
        List.filter_append, h1, h2, h3, h4]

/-- Folding the loop body over any list of (64-bit) client ids leaves the
`c`-related parts of both sink logs unchanged when `c`'s info is absent. -/
lemma foldl_preserves_absent_client {α : Type} (server : RenetServer α)
    (c : Nat) (hc : c < U64) (habs : server.network_info c = none) :
    ∀ (cs : List Nat), (∀ x ∈ cs, x < U64) →
      ∀ acc : RenetDiagnosticsState × Diagnostics α,
        ((cs.foldl (server_client_step server) acc).2.added.filter
            (fun e => decide (e.id ∈ clientIdsOf c)) =
          acc.2.added.filter (fun e => decide (e.id ∈ clientIdsOf c))) ∧
        ((cs.foldl (server_client_step server) acc).2.pushed.filter
            (fun m => decide (m.1 ∈ clientIdsOf c)) =
          acc.2.pushed.filter (fun m => decide (m.1 ∈ clientIdsOf c))) := by
  intro cs
  induction cs with
  | nil => exact fun _ acc => ⟨rfl, rfl⟩
  | cons c' cs ih =>
    intro hall acc
    rw [List.foldl_cons]
    have hc' : c' < U64 := hall c' (List.mem_cons_self _ _)
    have hstep := server_client_step_preserves_other server c c' hc hc'
      habs acc
    have hih := ih (fun x hx => hall x (List.mem_cons_of_mem _ hx))
      (server_client_step server acc c')
    exact ⟨hih.1.trans hstep.1, hih.2.trans hstep.2⟩

/-- C5: a connected client whose network-info lookup is absent is silently
skipped for the tick: its membership in the registered-client set is
unchanged (a registered id stays registered), no series with one of its four
derived identifiers is registered, and no sample with one of its four
derived identifiers is pushed. -/
theorem absent_info_client_skipped {α : Type} (server : RenetServer α)
    (s : RenetDiagnosticsState) (d : Diagnostics α) (c : Nat)
    (hc : c < U64) (hall : ∀ x ∈ server.clients_id, x < U64)
    (habs : server.network_info c = none) :
    (c ∈ (diagnostic_server_system server s d).1.added_client_ids ↔
      c ∈ s.added_client_ids) ∧
    ((diagnostic_server_system server s d).2.added.filter
        (fun e => decide (e.id ∈ clientIdsOf c)) =
      d.added.filter (fun e => decide (e.id ∈ clientIdsOf c))) ∧
    ((diagnostic_server_system server s d).2.pushed.filter
        (fun m => decide (m.1 ∈ clientIdsOf c)) =
      d.pushed.filter (fun m => decide (m.1 ∈ clientIdsOf c))) := by
  refine ⟨?_, ?_, ?_⟩
  · rw [diagnostic_server_system,
      foldl_server_client_step_mem server server.clients_id (s, d) c]
    simp [habs]
  · exact (foldl_preserves_absent_client server c hc habs
      server.clients_id hall (s, d)).1
  · exact (foldl_preserves_absent_client server c hc habs
      server.clients_id hall (s, d)).2

/-- A concrete two-client server over `Nat` samples: client 1 has info,
client 2 is connected but its info is absent. -/
def demoServer : RenetServer Nat :=
  ⟨[1, 2], fun x => if x = 1 then some ⟨10, 11, 12, 13⟩ else none⟩

/-- Witness for C5 at `demoServer`, the empty registry and empty sink,
absent client 2. -/
theorem absent_info_client_skipped_witness :
    (2 : Nat) < U64 ∧ (∀ x ∈ demoServer.clients_id, x < U64) ∧
    demoServer.network_info 2 = none ∧
    (((2 : Nat) ∈ (diagnostic_server_system demoServer
          RenetDiagnosticsState.start ⟨[], []⟩).1.added_client_ids ↔
        (2 : Nat) ∈ RenetDiagnosticsState.start.added_client_ids) ∧
      ((diagnostic_server_system demoServer RenetDiagnosticsState.start
            (⟨[], []⟩ : Diagnostics Nat)).2.added.filter
          (fun e => decide (e.id ∈ clientIdsOf 2)) =
        List.filter (fun e => decide (e.id ∈ clientIdsOf 2)) []) ∧
      ((diagnostic_server_system demoServer RenetDiagnosticsState.start
            (⟨[], []⟩ : Diagnostics Nat)).2.pushed.filter
          (fun m => decide (m.1 ∈ clientIdsOf 2)) =
        List.filter (fun m => decide (m.1 ∈ clientIdsOf 2)) [])) :=
  ⟨by rw [U64_eq]; omega,
    by
      intro x hx
      rw [U64_eq]
      simp only [demoServer, List.mem_cons, List.mem_singleton,
        List.not_mem_nil, or_false] at hx
      rcases hx with rfl | rfl <;> omega,
    rfl,
    absent_info_client_skipped demoServer RenetDiagnosticsState.start
      ⟨[], []⟩ 2 (by rw [U64_eq]; omega)
      (by
        intro x hx
        rw [U64_eq]
        simp only [demoServer, List.mem_cons, List.mem_singleton,
          List.not_mem_nil, or_false] at hx
        rcases hx with rfl | rfl <;> omega)
      rfl⟩

/-- Witness for C3 at `demoServer` and the empty registry: client 1 (info
present) is registered by the tick. -/
theorem registered_set_lifecycle_witness :
    (1 : Nat) ∈ (diagnostic_server_system demoServer
        RenetDiagnosticsState.start
        (⟨[], []⟩ : Diagnostics Nat)).1.added_client_ids ↔
      (1 : Nat) ∈ RenetDiagnosticsState.start.added_client_ids ∨
        ((1 : Nat) ∈ demoServer.clients_id ∧
          (demoServer.network_info 1).isSome) :=
  (((registered_set_lifecycle Nat).2 demoServer
    RenetDiagnosticsState.start ⟨[], []⟩).2 1)
